import Mathlib

/-!
Verification of the Aether local-service client layer.

This file embeds, in Lean, the client-side logic of the Aether editor
extension: the hysteresis state machine of the connectivity monitor
(`doHealthCheck` in the extension entry point), the `BrainClient`
health check with port discovery, the tracked-request slot used for
cancellation, the HTTP response classification of `_makeRequest`, and
the server-sent-event stream ingester of `pullModel`.

Platform primitives (the JSON decoder, the network) are abstracted as
explicit parameters; the string primitives used by the stream ingester
(`split`, `trim`, `startsWith`, `slice`) are re-implemented over
`List Char` with the semantics the JavaScript runtime gives them.
-/

namespace Aether

/-! ## Connectivity monitor (extension entry point)

The extension keeps `failCount`/`wasOnline` and updates them on every
health-check result:

```
if (ok) { failCount = 0; if (!wasOnline) { wasOnline = true; ... } }
else    { failCount++;
          if (failCount >= MAX_FAILS && wasOnline) { wasOnline = false; ... } }
```
-/

structure ConnState where
  wasOnline : Bool
  failCount : Nat
deriving DecidableEq

def MAX_FAILS : Nat := 3

/-- One step of the monitor, from `doHealthCheck` in the entry point. -/
def doHealthCheck (s : ConnState) (ok : Bool) : ConnState :=
  if ok then
    { wasOnline := true, failCount := 0 }
  else
    let fc := s.failCount + 1
    if MAX_FAILS ≤ fc ∧ s.wasOnline = true then
      { wasOnline := false, failCount := fc }
    else
      { s with failCount := fc }

/-- The monitor starts Offline with a zero failure counter. -/
def initConn : ConnState := { wasOnline := false, failCount := 0 }

/-- The state after a finite sequence of probe outcomes. -/
def runHealth (l : List Bool) : ConnState := l.foldl doHealthCheck initConn

/-- Number of consecutive failing probes at the end of the outcome list. -/
def trailingFails (l : List Bool) : Nat :=
  (l.reverse.takeWhile (fun b => !b)).length

/-! ## Tracked-request slot (`BrainClient._vibeRequest`)

`_fetchTracked` creates a request handle and stores it in the slot;
every completion path of `_makeRequest` (response end, error, timeout)
runs `if (this._vibeRequest === req) { this._vibeRequest = null; }`;
`abort()` destroys the slotted handle and clears the slot.

Handles are identified by numbers; `running` collects handles whose
exchange has not completed, `destroyed` those whose connection was
forcibly terminated. -/

inductive DispatchEvent where
  | start (id : Nat)
  | complete (id : Nat)
  | cancel
deriving DecidableEq

structure DispatcherState where
  vibeRequest : Option Nat
  running : List Nat
  destroyed : List Nat
deriving DecidableEq

def dstep (s : DispatcherState) : DispatchEvent → DispatcherState
  | .start id =>
    { s with running := id :: s.running, vibeRequest := some id }
  | .complete id =>
    { s with
      running := s.running.erase id,
      vibeRequest := if s.vibeRequest = some id then none else s.vibeRequest }
  | .cancel =>
    match s.vibeRequest with
    | some r =>
      { vibeRequest := none,
        running := s.running.erase r,
        destroyed := r :: s.destroyed }
    | none => s

def initDispatcher : DispatcherState :=
  { vibeRequest := none, running := [], destroyed := [] }

/-! ## Health check with port discovery (`BrainClient.healthCheck`)

A probe of `/health` through `_fire` either rejects with one of the four
error kinds or resolves with a decoded `{ status }` body.  The network is
abstracted as a function from the effective port to that outcome (scheme,
host and path are fixed throughout the discovery loop).  The endpoint is
tracked by the port component of `_baseUrl` (`none` when the URL carries
no explicit port, in which case requests go to 8420). -/

inductive RequestError where
  | network (msg : String)
  | timeout
  | remote (status : Nat) (detail : String)
  | invalidResponse (msg : String)
deriving DecidableEq

structure HealthResp where
  status : String
deriving DecidableEq

/-- The effective port: `parseInt(base.port || "8420")`, and the same default applied by
`_makeRequest` (`port: url.port || 8420`). -/
def effPort (ep : Option Nat) : Nat := ep.getD 8420

def probeOk (r : Except RequestError HealthResp) : Bool :=
  match r with
  | .ok h => h.status == "ok"
  | .error _ => false

def isErr (r : Except RequestError HealthResp) : Bool :=
  match r with
  | .error _ => true
  | .ok _ => false

/-- The discovery loop body: `for (p = basePort; p < basePort + 10; p++)`
skipping `p == basePort`, adopting the first port whose probe resolves
with status `"ok"`.  Returns the adopted port (if any) and the list of
ports actually probed, in order. -/
def discoverLoop (world : Nat → Except RequestError HealthResp)
    (basePort : Nat) : List Nat → Option Nat × List Nat
  | [] => (none, [])
  | p :: rest =>
    if p = basePort then discoverLoop world basePort rest
    else
      match world p with
      | .ok r =>
        if r.status == "ok" then (some p, [p])
        else
          let (res, tr) := discoverLoop world basePort rest
          (res, p :: tr)
      | .error _ =>
        let (res, tr) := discoverLoop world basePort rest
        (res, p :: tr)

structure HCOutcome where
  ok : Bool
  endpoint : Option Nat
  probed : List Nat
deriving DecidableEq

/-- Embedding of `BrainClient.healthCheck`: probe the configured endpoint; on a decoded
response report whether its status is `"ok"`; on a thrown error run the
discovery loop over `basePort .. basePort + 9` and adopt the first port
reporting ok, else report `false` with the endpoint unchanged. -/
def healthCheck (world : Nat → Except RequestError HealthResp)
    (ep : Option Nat) : HCOutcome :=
  match world (effPort ep) with
  | .ok r => { ok := r.status == "ok", endpoint := ep, probed := [effPort ep] }
  | .error _ =>
    match discoverLoop world (effPort ep) (List.range' (effPort ep) 10) with
    | (some p, tr) =>
      { ok := true, endpoint := some p, probed := effPort ep :: tr }
    | (none, tr) =>
      { ok := false, endpoint := ep, probed := effPort ep :: tr }

/-- Concrete world for the `healthCheck_port_discovery` witness: the
configured port 8420 errors, 8421 and 8422 error, 8423 and 8424 both
report ok. -/
def c2World : Nat → Except RequestError HealthResp :=
  fun p =>
    if p = 8423 then .ok { status := "ok" }
    else if p = 8424 then .ok { status := "ok" }
    else .error .timeout

/-- Concrete world refuting the stated trigger condition of discovery:
the configured port 8420 resolves with a well-formed non-ok status,
and 8421 would report ok. -/
def c3World : Nat → Except RequestError HealthResp :=
  fun p =>
    if p = 8420 then .ok { status := "starting" }
    else if p = 8421 then .ok { status := "ok" }
    else .error .timeout

/-- Two probe outcomes are error-equivalent when they are the same decoded
response or both errors, of whatever kind. -/
def errEquiv : Except RequestError HealthResp →
    Except RequestError HealthResp → Prop :=
  fun x y =>
    match x, y with
    | .error _, .error _ => True
    | .ok a, .ok b => a = b
    | _, _ => False

/-! ## Response classification (`BrainClient._makeRequest`)

On response end the accumulated body is classified:

```
const status = res.statusCode ?? 0;
if (status >= 400) {
  let detail = data.slice(0, 300);
  try { const p = JSON.parse(data); if (p.detail) { detail = p.detail; } }
  catch { }
  reject(new Error(`Brain HTTP ${status}: ${detail}`));
  return;
}
try { resolve(JSON.parse(data) as T); }
catch { reject(new Error(`Invalid JSON: ${data.slice(0, 200)}`)); }
```

`JSON.parse` is abstracted as a function from the raw body to an optional
decoded object, of which only the `detail` field (string or absent) is
relevant; `none` stands for a parse failure.  Note the JavaScript
truthiness test `if (p.detail)`: a present but *empty* detail string is
falsy and therefore ignored. -/

structure BodyJson where
  detail : Option String
deriving DecidableEq

inductive RequestOutcome where
  | ok (body : BodyJson)
  | remoteError (status : Nat) (detail : String)
  | invalidResponse (snippet : String)
deriving DecidableEq

/-- JS `data.slice(0, n)`. -/
def jsSlice (s : String) (n : Nat) : String := ⟨s.data.take n⟩

def classifyResponse (parse : String → Option BodyJson) (status : Nat)
    (data : String) : RequestOutcome :=
  if 400 ≤ status then
    RequestOutcome.remoteError status
      (match parse data with
       | some p =>
         match p.detail with
         | some d => if d = "" then jsSlice data 300 else d
         | none => jsSlice data 300
       | none => jsSlice data 300)
  else
    match parse data with
    | some j => .ok j
    | none => .invalidResponse (jsSlice data 200)

/-- A decoder acting as `JSON.parse` does on the body used in the
counterexample below. -/
def c6Parse : String → Option BodyJson :=
  fun s =>
    if s = "\x7b\"detail\":\"\"\x7d" then some { detail := some "" } else none

/-- A decoder acting as `JSON.parse` does on the bodies used in the
witness below. -/
def c6WitnessParse : String → Option BodyJson :=
  fun s =>
    if s = "\x7b\"detail\":\"not found\"\x7d" then
      some { detail := some "not found" }
    else none

/-! ## Pull-stream ingester (`BrainClient.pullModel`)

The data handler accumulates chunks in a buffer, splits on the blank-line
delimiter keeping the trailing partial unit, trims each complete unit,
keeps only those starting with `data: `, JSON-parses the remainder
(failures silently discarded), records the last seen `status` (default
empty) and invokes the progress sink for units with a numeric `pct`:

```
buffer += chunk.toString();
const lines = buffer.split("\n\n");
buffer = lines.pop() || "";
for (const block of lines) {
  const line = block.trim();
  if (!line.startsWith("data: ")) { continue; }
  try {
    const data = JSON.parse(line.slice(6));
    lastStatus = data.status || "";
    if (onProgress && typeof data.pct === "number") {
      onProgress(data.pct, lastStatus);
    }
  } catch { }
}
```

The JavaScript string primitives are given over `List Char` with their
runtime semantics; the JSON decoder is abstracted as a function to an
optional record with an optional `status` string (absent or falsy gives
the empty default) and an optional numeric `pct`. -/

/-- JS `String.prototype.trim`. -/
def jsTrim (l : List Char) : List Char :=
  ((l.dropWhile Char.isWhitespace).reverse.dropWhile Char.isWhitespace).reverse

/-- JS `a.startsWith(p)`, with the pattern as first argument. -/
def jsStartsWith : List Char → List Char → Bool
  | [], _ => true
  | _ :: _, [] => false
  | p :: ps, c :: cs => p == c && jsStartsWith ps cs

/-- JS `buffer.split("\n\n")`: split on non-overlapping leftmost occurrences
of the blank-line delimiter; always returns at least one part. -/
def splitBlankLine : List Char → List (List Char)
  | '\n' :: '\n' :: rest => [] :: splitBlankLine rest
  | c :: rest =>
    match splitBlankLine rest with
    | [] => [[c]]
    | h :: t => (c :: h) :: t
  | [] => [[]]

structure PulledUnit where
  status : Option String
  pct : Option Int
deriving DecidableEq

structure IngestState where
  buffer : List Char
  lastStatus : String
  events : List (Int × String)
deriving DecidableEq

def dataPrefix : List Char := "data: ".data

/-- The loop body for one complete unit. -/
def processBlock (parse : List Char → Option PulledUnit)
    (s : IngestState) (block : List Char) : IngestState :=
  let line := jsTrim block
  if jsStartsWith dataPrefix line then
    match parse (line.drop 6) with
    | some u =>
      match u.pct with
      | some pct =>
        { s with lastStatus := u.status.getD "",
                 events := s.events ++ [(pct, u.status.getD "")] }
      | none => { s with lastStatus := u.status.getD "" }
    | none => s
  else s

/-- The `data` handler for one incoming chunk. -/
def processChunk (parse : List Char → Option PulledUnit)
    (s : IngestState) (chunk : List Char) : IngestState :=
  let parts := splitBlankLine (s.buffer ++ chunk)
  parts.dropLast.foldl (processBlock parse)
    { s with buffer := parts.getLastD [] }

def initIngest : IngestState := { buffer := [], lastStatus := "", events := [] }

def ingest (parse : List Char → Option PulledUnit)
    (chunks : List (List Char)) : IngestState :=
  chunks.foldl (processChunk parse) initIngest

structure PullOutcome where
  status : String
  model : Option String
  message : Option String
deriving DecidableEq

/-- The `end` handler of `pullModel`: derive the terminal outcome from the
last known status. -/
def pullTerminal (lastStatus model : String) : PullOutcome :=
  if lastStatus = "done" ∨ lastStatus = "success" then
    { status := "ok", model := some model, message := none }
  else if lastStatus = "error" then
    { status := "error", model := none, message := some "Pull failed" }
  else
    { status := "ok", model := some model, message := none }

def pullModelResult (parse : List Char → Option PulledUnit)
    (chunks : List (List Char)) (model : String) : PullOutcome :=
  pullTerminal (ingest parse chunks).lastStatus model

/-- A decoder acting as `JSON.parse` does on the unit used in the
witness below. -/
def c4Parse : List Char → Option PulledUnit :=
  fun l =>
    if l = "\x7b\"status\":\"error\"\x7d".data then
      some { status := some "error", pct := none }
    else none

/-- First complete unit of the two-unit example stream. -/
def pullUnitA : List Char := "data: \x7b\"pct\":10,\"status\":\"running\"\x7d".data

/-- Second complete unit of the two-unit example stream. -/
def pullUnitB : List Char := "data: \x7b\"status\":\"done\"\x7d".data

/-- JSON payload of the first unit. -/
def pullPayloadA : List Char := "\x7b\"pct\":10,\"status\":\"running\"\x7d".data

/-- JSON payload of the second unit. -/
def pullPayloadB : List Char := "\x7b\"status\":\"done\"\x7d".data

/-- The example stream as two whole-unit chunks. -/
def pullChunkA1 : List Char :=
  "data: \x7b\"pct\":10,\"status\":\"running\"\x7d\n\n".data

def pullChunkA2 : List Char := "data: \x7b\"status\":\"done\"\x7d\n\n".data

/-- The same bytes re-chunked mid-unit. -/
def pullChunkB1 : List Char := "data: \x7b\"pct\":10,\"st".data

def pullChunkB2 : List Char :=
  "atus\":\"running\"\x7d\n\ndata: \x7b\"status\":\"done\"\x7d\n\n".data

/-- A decoder acting as `JSON.parse` does on the two payloads of the
example stream. -/
def c7Parse : List Char → Option PulledUnit :=
  fun l =>
    if l = pullPayloadA then some { status := some "running", pct := some 10 }
    else if l = pullPayloadB then some { status := some "done", pct := none }
    else none

lemma trailingFails_concat (l : List Bool) (b : Bool) :
    trailingFails (l ++ [b]) = if b then 0 else trailingFails l + 1 := by
  cases b <;> simp [trailingFails, List.reverse_concat, List.takeWhile_cons]

lemma runHealth_concat (l : List Bool) (b : Bool) :
    runHealth (l ++ [b]) = doHealthCheck (runHealth l) b := by
  simp [runHealth]

/-- Closed form of the monitor state reached by an outcome sequence. -/
lemma runHealth_spec (l : List Bool) :
    runHealth l =
      if true ∈ l then
        { wasOnline := decide (trailingFails l < MAX_FAILS),
          failCount := trailingFails l }
      else
        { wasOnline := false, failCount := l.length } := by
  induction l using List.reverseRecOn with
  | nil => simp [runHealth, trailingFails, initConn]
  | append_singleton l b ih =>
    rw [runHealth_concat, ih]
    cases b with
    | true =>
      have hmem : true ∈ l ++ [true] := by simp
      simp [doHealthCheck, hmem, trailingFails_concat, MAX_FAILS]
    | false =>
      have hmem : (true ∈ l ++ [false]) ↔ (true ∈ l) := by simp
      by_cases hc : true ∈ l
      · rw [if_pos hc, if_pos (hmem.mpr hc), trailingFails_concat]
        by_cases h3 : trailingFails l < MAX_FAILS
        · by_cases h2 : MAX_FAILS ≤ trailingFails l + 1
          · have hk : trailingFails l = 2 := by simp [MAX_FAILS] at h3 h2; omega
            simp [doHealthCheck, hk, MAX_FAILS]
          · have hlt : trailingFails l + 1 < MAX_FAILS := by omega
            simp [doHealthCheck, h3, h2, hlt]
        · have h2 : MAX_FAILS ≤ trailingFails l + 1 := by omega
          have hge : ¬ trailingFails l + 1 < MAX_FAILS := by omega
          simp [doHealthCheck, h3, hge]
      · rw [if_neg hc, if_neg (fun h => hc (hmem.mp h))]
        simp [doHealthCheck]

/-- C1. For every finite sequence of probe outcomes driven through the
monitor from its initial state (Offline, counter 0): a successful probe
always yields the Online state with the counter reset to 0 — in particular
a single success while Offline flips to Online immediately, whatever the
prior failure count; and while Online the counter equals the number of
consecutive failures since the last success, and one more failing probe
flips the state to Offline exactly when it is the 3rd such consecutive
failure, never after only 1 or 2. -/
lemma doHealthCheck_false_online (k : Nat) :
    (doHealthCheck { wasOnline := true, failCount := k } false).wasOnline =
      decide (k + 1 < 3) := by
  by_cases h : MAX_FAILS ≤ k + 1
  · have h3 : ¬ (k + 1 < 3) := by simp [MAX_FAILS] at h; omega
    simp [doHealthCheck, h, h3]
  · have h3 : k + 1 < 3 := by simp [MAX_FAILS] at h; omega
    simp [doHealthCheck, h, h3]

theorem connectivity_hysteresis (l : List Bool) :
    doHealthCheck (runHealth l) true = { wasOnline := true, failCount := 0 } ∧
    ((runHealth l).wasOnline = true →
      (runHealth l).failCount = trailingFails l ∧
      (((doHealthCheck (runHealth l) false).wasOnline = false) ↔
        trailingFails l + 1 = 3)) := by
  refine ⟨by simp [doHealthCheck], fun hon => ?_⟩
  rw [runHealth_spec] at hon ⊢
  by_cases hc : true ∈ l
  · rw [if_pos hc] at hon ⊢
    simp only [decide_eq_true_eq] at hon
    have h3 : trailingFails l < 3 := by simpa [MAX_FAILS] using hon
    have hd : decide (trailingFails l < MAX_FAILS) = true := by
      simpa using hon
    rw [hd]
    refine ⟨rfl, ?_⟩
    rw [doHealthCheck_false_online]
    constructor
    · intro hfalse
      simp only [decide_eq_false_iff_not] at hfalse
      omega
    · intro hk
      simp only [decide_eq_false_iff_not]
      omega
  · rw [if_neg hc] at hon
    simp at hon

/-- Witness for `connectivity_hysteresis` at the concrete outcome sequence
`[true, false, false]` (online, then two consecutive failures). -/
theorem connectivity_hysteresis_witness :
    doHealthCheck (runHealth [true, false, false]) true =
      { wasOnline := true, failCount := 0 } ∧
    (runHealth [true, false, false]).failCount =
      trailingFails [true, false, false] ∧
    ((doHealthCheck (runHealth [true, false, false]) false).wasOnline = false ↔
      trailingFails [true, false, false] + 1 = 3) := by
  have h := connectivity_hysteresis [true, false, false]
  exact ⟨h.1, (h.2 (by decide)).1, (h.2 (by decide)).2⟩

/-- C9. `abort()` on an empty slot is a no-op (and, being a total
function, never throws); when the slot holds a handle it forcibly
terminates the connection of that handle and clears the slot immediately. -/
theorem cancel_idle_noop_active_destroys (s : DispatcherState) :
    (s.vibeRequest = none → dstep s .cancel = s) ∧
    (∀ r, s.vibeRequest = some r →
      dstep s .cancel =
        { vibeRequest := none,
          running := s.running.erase r,
          destroyed := r :: s.destroyed }) := by
  constructor
  · intro h
    simp [dstep, h]
  · intro r h
    simp [dstep, h]

/-- Witness for `cancel_idle_noop_active_destroys`: an idle dispatcher and
a dispatcher holding handle 7. -/
theorem cancel_idle_noop_active_destroys_witness :
    dstep initDispatcher .cancel = initDispatcher ∧
    dstep { vibeRequest := some 7, running := [7], destroyed := [] }
        DispatchEvent.cancel =
      { vibeRequest := none, running := [], destroyed := [7] } := by
  refine ⟨(cancel_idle_noop_active_destroys initDispatcher).1 (by decide), ?_⟩
  have h := (cancel_idle_noop_active_destroys
    { vibeRequest := some 7, running := [7], destroyed := [] }).2 7 (by decide)
  simpa using h

/-- C5. Starting a second tracked exchange `b` while `a` is still in
flight leaves `a` running (neither completed nor destroyed) and makes the
slot hold only `b`; `cancel()` thereafter destroys exactly `b`, leaving
`a` running and undestroyed; completing `a` afterwards leaves the slot on
`b`; and in general a completion clears the slot when it still references
that same handle and never clears a slot some newer tracked call has
overwritten. -/
theorem tracked_slot_overwrite (s : DispatcherState) (a b : Nat)
    (hab : a ≠ b) (ha : a ∉ s.destroyed) :
    a ∈ (dstep (dstep s (.start a)) (.start b)).running ∧
    a ∉ (dstep (dstep s (.start a)) (.start b)).destroyed ∧
    (dstep (dstep s (.start a)) (.start b)).vibeRequest = some b ∧
    (dstep (dstep (dstep s (.start a)) (.start b)) .cancel).destroyed =
      b :: s.destroyed ∧
    a ∉ (dstep (dstep (dstep s (.start a)) (.start b)) .cancel).destroyed ∧
    a ∈ (dstep (dstep (dstep s (.start a)) (.start b)) .cancel).running ∧
    (dstep (dstep (dstep s (.start a)) (.start b)) (.complete a)).vibeRequest =
      some b ∧
    (∀ t : DispatcherState, ∀ id,
      t.vibeRequest = some id → (dstep t (.complete id)).vibeRequest = none) ∧
    (∀ t : DispatcherState, ∀ id c, t.vibeRequest = some c → id ≠ c →
      (dstep t (.complete id)).vibeRequest = some c) := by
  refine ⟨?_, ?_, ?_, ?_, ?_, ?_, ?_, ?_, ?_⟩
  · simp [dstep]
  · simp [dstep, ha]
  · simp [dstep]
  · simp [dstep]
  · simp [dstep, ha, hab]
  · simp [dstep, List.erase_cons_head, hab]
  · have hba : ¬ ((some b : Option Nat) = some a) := by
      intro h'
      exact hab (Option.some.inj h').symm
    simp [dstep, hba]
  · intro t id h
    simp [dstep, h]
  · intro t id c h hne
    have hni : ¬ t.vibeRequest = some id := by
      rw [h]
      intro h'
      exact hne (Option.some.inj h').symm
    simp [dstep, hni, h]
    exact fun h' => hne h'.symm

/-- Witness for `tracked_slot_overwrite` at the idle dispatcher with
handles 1 and 2. -/
theorem tracked_slot_overwrite_witness :
    1 ∈ (dstep (dstep initDispatcher (.start 1)) (.start 2)).running ∧
    (dstep (dstep initDispatcher (.start 1)) (.start 2)).vibeRequest =
      some 2 ∧
    (dstep (dstep (dstep initDispatcher (.start 1)) (.start 2))
        DispatchEvent.cancel).destroyed = [2] ∧
    1 ∈ (dstep (dstep (dstep initDispatcher (.start 1)) (.start 2))
        DispatchEvent.cancel).running := by
  have h := tracked_slot_overwrite initDispatcher 1 2 (by decide) (by decide)
  exact ⟨h.1, h.2.2.1, h.2.2.2.1, h.2.2.2.2.2.1⟩

lemma discoverLoop_found (world : Nat → Except RequestError HealthResp)
    (b : Nat) (n : Nat) :
    ∀ a q, b < a →
      (List.range' a n).find? (fun p => probeOk (world p)) = some q →
      discoverLoop world b (List.range' a n) =
        (some q, List.range' a (q + 1 - a)) := by
  induction n with
  | zero => intro a q _ hfind; simp at hfind
  | succ n ih =>
    intro a q hba hfind
    rw [List.range'_succ] at hfind ⊢
    have hne : ¬ a = b := fun h => Nat.lt_irrefl b (h ▸ hba)
    by_cases hok : probeOk (world a) = true
    · rw [List.find?_cons] at hfind
      simp only [hok, if_true] at hfind
      have hq : q = a := (Option.some.inj hfind).symm
      subst hq
      unfold discoverLoop
      rw [if_neg hne]
      unfold probeOk at hok
      cases hw : world q with
      | error e => rw [hw] at hok; simp at hok
      | ok r =>
        rw [hw] at hok
        simp only [] at hok
        have h1 : q + 1 - q = 1 := by omega
        simp [hok, h1]
    · rw [List.find?_cons] at hfind
      simp only [hok, if_false, Bool.false_eq_true, ite_false] at hfind
      have hq : a + 1 ≤ q := by
        have hmem := List.mem_of_find?_eq_some hfind
        exact (List.mem_range'_1.mp hmem).1
      have hrec := ih (a + 1) q (Nat.lt_succ_of_lt hba) hfind
      have hstep : discoverLoop world b (a :: List.range' (a + 1) n) =
          (some q, a :: List.range' (a + 1) (q + 1 - (a + 1))) := by
        unfold discoverLoop
        rw [if_neg hne]
        unfold probeOk at hok
        cases hw : world a with
        | error e => simp [hrec]
        | ok r =>
          rw [hw] at hok
          simp at hok
          simp [hok, hrec]
      rw [hstep]
      have harith : q + 1 - a = (q + 1 - (a + 1)) + 1 := by omega
      rw [harith, List.range'_succ]

lemma discoverLoop_exhausted (world : Nat → Except RequestError HealthResp)
    (b : Nat) (n : Nat) :
    ∀ a, b < a →
      (List.range' a n).find? (fun p => probeOk (world p)) = none →
      discoverLoop world b (List.range' a n) = (none, List.range' a n) := by
  induction n with
  | zero => intro a _ _; simp [discoverLoop]
  | succ n ih =>
    intro a hba hfind
    rw [List.range'_succ] at hfind ⊢
    have hne : ¬ a = b := fun h => Nat.lt_irrefl b (h ▸ hba)
    have hnok : ¬ probeOk (world a) = true :=
      List.find?_eq_none.mp hfind a (by simp)
    rw [List.find?_cons] at hfind
    simp only [hnok, if_false, Bool.false_eq_true, ite_false] at hfind
    have hrec := ih (a + 1) (Nat.lt_succ_of_lt hba) hfind
    unfold discoverLoop
    rw [if_neg hne]
    unfold probeOk at hnok
    cases hw : world a with
    | error e => simp [hrec]
    | ok r =>
      rw [hw] at hnok
      simp at hnok
      simp [hnok, hrec]

lemma discoverLoop_skip (world : Nat → Except RequestError HealthResp)
    (b : Nat) (rest : List Nat) :
    discoverLoop world b (b :: rest) = discoverLoop world b rest := by
  conv_lhs => unfold discoverLoop
  rw [if_pos rfl]

lemma range'_ten (b : Nat) :
    List.range' b 10 = b :: List.range' (b + 1) 9 := by
  rw [show (10 : Nat) = 9 + 1 from rfl, List.range'_succ]

/-- If the initial probe errors and `q` is the first of the nine candidate
ports whose probe reports ok, the health check succeeds, adopts `q`, and
has probed exactly the consecutive ports from the configured one up to
`q`. -/
lemma healthCheck_err_found (world : Nat → Except RequestError HealthResp)
    (ep : Option Nat) (q : Nat) (h : isErr (world (effPort ep)) = true)
    (hq : (List.range' (effPort ep + 1) 9).find?
        (fun p => probeOk (world p)) = some q) :
    healthCheck world ep =
      { ok := true, endpoint := some q,
        probed := List.range' (effPort ep) (q + 1 - effPort ep) } := by
  have hqmem : effPort ep + 1 ≤ q :=
    (List.mem_range'_1.mp (List.mem_of_find?_eq_some hq)).1
  have hfound := discoverLoop_found world (effPort ep) 9 (effPort ep + 1) q
    (Nat.lt_succ_self _) hq
  unfold healthCheck
  unfold isErr at h
  cases hw : world (effPort ep) with
  | ok r => rw [hw] at h; simp at h
  | error e =>
    rw [range'_ten, discoverLoop_skip, hfound]
    have harith : q + 1 - effPort ep = (q + 1 - (effPort ep + 1)) + 1 := by
      omega
    rw [harith, List.range'_succ]

/-- If the initial probe errors and none of the nine candidate ports
reports ok, the health check fails, keeps the endpoint, and has probed
the configured port and all nine candidates. -/
lemma healthCheck_err_none (world : Nat → Except RequestError HealthResp)
    (ep : Option Nat) (h : isErr (world (effPort ep)) = true)
    (hq : (List.range' (effPort ep + 1) 9).find?
        (fun p => probeOk (world p)) = none) :
    healthCheck world ep =
      { ok := false, endpoint := ep, probed := List.range' (effPort ep) 10 } := by
  have hnone := discoverLoop_exhausted world (effPort ep) 9 (effPort ep + 1)
    (Nat.lt_succ_self _) hq
  unfold healthCheck
  unfold isErr at h
  cases hw : world (effPort ep) with
  | ok r => rw [hw] at h; simp at h
  | error e =>
    rw [range'_ten, discoverLoop_skip, hnone]

/-- C2. When the initial health probe against the configured endpoint
fails (the `_fire` call rejects), discovery probes the consecutive ports
`configuredPort + 1 .. configuredPort + 9` in strictly ascending order,
skipping the already-tried configured port (which defaults to 8420 when
the URL carries none): if `q` is the first candidate whose probe reports
ok, the endpoint becomes `q`, the result is true, and the ports probed
are exactly the consecutive run from the configured port up to `q` — no
port beyond `q` is ever probed; if no candidate reports ok, all nine are
probed in order. -/
theorem healthCheck_port_discovery (world : Nat → Except RequestError HealthResp)
    (ep : Option Nat) (h : isErr (world (effPort ep)) = true) :
    (∀ q, (List.range' (effPort ep + 1) 9).find?
        (fun p => probeOk (world p)) = some q →
      healthCheck world ep =
        { ok := true, endpoint := some q,
          probed := List.range' (effPort ep) (q + 1 - effPort ep) }) ∧
    ((List.range' (effPort ep + 1) 9).find?
        (fun p => probeOk (world p)) = none →
      healthCheck world ep =
        { ok := false, endpoint := ep,
          probed := List.range' (effPort ep) 10 }) :=
  ⟨fun q hq => healthCheck_err_found world ep q h hq,
   fun hq => healthCheck_err_none world ep h hq⟩

/-- Witness for `healthCheck_port_discovery`: the first ok port 8423 is
adopted and 8424 — although it would also report ok — is never probed. -/
theorem healthCheck_port_discovery_witness :
    healthCheck c2World none =
      { ok := true, endpoint := some 8423,
        probed := [8420, 8421, 8422, 8423] } ∧
    8424 ∉ (healthCheck c2World none).probed ∧
    probeOk (c2World 8424) = true := by
  have h := (healthCheck_port_discovery c2World none (by decide)).1 8423 (by decide)
  refine ⟨?_, ?_, by decide⟩
  · rw [h]; decide
  · rw [h]; decide

/-- Counterexample to **C3** as stated.  The initial probe resolves with a
well-formed response whose status is not `"ok"`, so per the claim the
port scan would be triggered and would adopt 8421 (which reports ok).
The code instead returns false at once: it probes only the configured
port, never probes 8421, and leaves the endpoint unchanged. -/
theorem discovery_trigger_counterexample :
    probeOk (c3World 8420) = false ∧
    probeOk (c3World 8421) = true ∧
    healthCheck c3World none =
      { ok := false, endpoint := none, probed := [8420] } ∧
    8421 ∉ (healthCheck c3World none).probed := by decide

/-- C3, amended. Endpoint discovery is triggered exactly when the
initial probe against the configured endpoint rejects with an error: a
decoded response — ok or not — yields the boolean of its status with no
further port probed; an error always starts the scan (strictly more
ports get probed than the configured one); and when the scan finds no
ok port the health check resolves to false. -/
theorem discovery_trigger_amended (world : Nat → Except RequestError HealthResp)
    (ep : Option Nat) :
    (∀ r, world (effPort ep) = .ok r →
      healthCheck world ep =
        { ok := r.status == "ok", endpoint := ep, probed := [effPort ep] }) ∧
    (isErr (world (effPort ep)) = true →
      1 < (healthCheck world ep).probed.length) ∧
    (isErr (world (effPort ep)) = true →
      (List.range' (effPort ep + 1) 9).find?
        (fun p => probeOk (world p)) = none →
      (healthCheck world ep).ok = false) := by
  refine ⟨?_, ?_, ?_⟩
  · intro r hw
    unfold healthCheck
    rw [hw]
  · intro h
    rcases hf : (List.range' (effPort ep + 1) 9).find?
        (fun p => probeOk (world p)) with _ | q
    · rw [healthCheck_err_none world ep h hf]
      simp
    · have hqmem : effPort ep + 1 ≤ q :=
        (List.mem_range'_1.mp (List.mem_of_find?_eq_some hf)).1
      rw [healthCheck_err_found world ep q h hf]
      simp only [List.length_range']
      omega
  · intro h hf
    rw [healthCheck_err_none world ep h hf]

/-- Witness for `discovery_trigger_amended`: a world where every probe
times out, and one where the configured port resolves non-ok. -/
theorem discovery_trigger_amended_witness :
    1 < (healthCheck (fun _ => .error .timeout) none).probed.length ∧
    (healthCheck (fun _ => .error .timeout) none).ok = false ∧
    healthCheck c3World none =
      { ok := ((⟨"starting"⟩ : HealthResp).status == "ok"),
        endpoint := none, probed := [8420] } := by
  have h1 := (discovery_trigger_amended (fun _ => .error .timeout) none).2.1
    (by decide)
  have h2 := (discovery_trigger_amended (fun _ => .error .timeout) none).2.2
    (by decide) (by decide)
  have h3 := (discovery_trigger_amended c3World none).1 ⟨"starting"⟩ rfl
  exact ⟨h1, h2, h3⟩

lemma discoverLoop_congr (w1 w2 : Nat → Except RequestError HealthResp)
    (b : Nat) (h : ∀ p, errEquiv (w1 p) (w2 p)) :
    ∀ l, discoverLoop w1 b l = discoverLoop w2 b l := by
  intro l
  induction l with
  | nil => rfl
  | cons p rest ih =>
    unfold discoverLoop
    by_cases hpb : p = b
    · rw [if_pos hpb, if_pos hpb, ih]
    · rw [if_neg hpb, if_neg hpb]
      have hp := h p
      cases h1 : w1 p with
      | error e =>
        cases h2 : w2 p with
        | error e2 => rw [ih]
        | ok r2 => rw [h1, h2] at hp; simp [errEquiv] at hp
      | ok r =>
        cases h2 : w2 p with
        | error e2 => rw [h1, h2] at hp; simp [errEquiv] at hp
        | ok r2 =>
          rw [h1, h2] at hp
          simp only [errEquiv] at hp
          rw [hp, ih]

lemma probeOk_of_isErr {x : Except RequestError HealthResp}
    (h : isErr x = true) : probeOk x = false := by
  cases x with
  | error e => rfl
  | ok r => simp [isErr] at h

/-- C8. `healthCheck` always yields a boolean — it is a total function
of the probe world — and every one of the four error kinds is swallowed
internally: replacing any error by an error of another kind changes
nothing about the result, and a world where the configured endpoint and
all nine discovery candidates error (in any mix of kinds) makes it
resolve to false with the endpoint untouched. -/
theorem healthCheck_swallows_errors
    (w1 w2 : Nat → Except RequestError HealthResp) (ep : Option Nat)
    (h : ∀ p, errEquiv (w1 p) (w2 p)) :
    healthCheck w1 ep = healthCheck w2 ep ∧
    (isErr (w1 (effPort ep)) = true →
      (∀ p ∈ List.range' (effPort ep + 1) 9, isErr (w1 p) = true) →
      healthCheck w1 ep =
        { ok := false, endpoint := ep,
          probed := List.range' (effPort ep) 10 }) := by
  constructor
  · unfold healthCheck
    have hp := h (effPort ep)
    cases h1 : w1 (effPort ep) with
    | error e =>
      cases h2 : w2 (effPort ep) with
      | error e2 => rw [discoverLoop_congr w1 w2 (effPort ep) h]
      | ok r2 => rw [h1, h2] at hp; simp [errEquiv] at hp
    | ok r =>
      cases h2 : w2 (effPort ep) with
      | error e2 => rw [h1, h2] at hp; simp [errEquiv] at hp
      | ok r2 =>
        rw [h1, h2] at hp
        simp only [errEquiv] at hp
        rw [hp]
  · intro herr hall
    have hf : (List.range' (effPort ep + 1) 9).find?
        (fun p => probeOk (w1 p)) = none := by
      rw [List.find?_eq_none]
      intro x hx
      simp [probeOk_of_isErr (hall x hx)]
    exact healthCheck_err_none w1 ep herr hf

/-- Witness for `healthCheck_swallows_errors`: a world of timeouts against
a world of network errors. -/
theorem healthCheck_swallows_errors_witness :
    healthCheck (fun _ => .error .timeout) none =
      healthCheck (fun _ => .error (.network "refused")) none ∧
    healthCheck (fun _ => .error .timeout) none =
      { ok := false, endpoint := none, probed := List.range' 8420 10 } := by
  have h := healthCheck_swallows_errors (fun _ => .error .timeout)
    (fun _ => .error (.network "refused")) none (fun _ => trivial)
  exact ⟨h.1, h.2 (by decide) (by decide)⟩

/-- C10. Whenever `healthCheck` resolves to false, the configured base
endpoint is left unchanged: the endpoint is only mutated in the branch
where a discovery probe reports ok, which returns true. -/
theorem healthCheck_false_frame (world : Nat → Except RequestError HealthResp)
    (ep : Option Nat) (h : (healthCheck world ep).ok = false) :
    (healthCheck world ep).endpoint = ep := by
  unfold healthCheck at h ⊢
  cases hw : world (effPort ep) with
  | ok r => rfl
  | error e =>
    rcases hd : discoverLoop world (effPort ep) (List.range' (effPort ep) 10)
      with ⟨res, tr⟩
    rw [hw, hd] at h
    cases res with
    | some p => simp at h
    | none => rfl

/-- Witness for `healthCheck_false_frame` at a world where every probe
times out. -/
theorem healthCheck_false_frame_witness :
    (healthCheck (fun _ => .error .timeout) none).ok = false ∧
    (healthCheck (fun _ => .error .timeout) none).endpoint = none :=
  ⟨by decide, healthCheck_false_frame (fun _ => .error .timeout) none (by decide)⟩

/-- Counterexample to **C6** as stated.  The body parses as JSON
containing a detail string — the empty one — so per the claim the message
of the remote error would be that detail field.  The code tests `if
(p.detail)`, where the empty string is falsy, and instead carries the
300-character slice of the raw body, which differs from the detail. -/
theorem remote_detail_counterexample :
    c6Parse "\x7b\"detail\":\"\"\x7d" = some { detail := some "" } ∧
    classifyResponse c6Parse 404 "\x7b\"detail\":\"\"\x7d" =
      .remoteError 404 "\x7b\"detail\":\"\"\x7d" ∧
    ("\x7b\"detail\":\"\"\x7d" : String) ≠ "" := by decide

/-- C6, amended. For every completed exchange: a response with status
≥ 400 yields a remote error whose message is the detail field of the body when
the body parses as JSON containing a *non-empty* detail string, and
otherwise (parse failure, missing detail, or empty detail) the first 300
characters of the raw body; a response with status < 400 whose body fails
to parse yields an invalid-response error carrying the first 200
characters of the raw body. -/
theorem classify_response_amended (parse : String → Option BodyJson)
    (status : Nat) (data : String) :
    (400 ≤ status → ∀ j d, parse data = some j → j.detail = some d → d ≠ "" →
      classifyResponse parse status data = .remoteError status d) ∧
    (400 ≤ status → parse data = none →
      classifyResponse parse status data =
        .remoteError status (jsSlice data 300)) ∧
    (400 ≤ status → ∀ j, parse data = some j →
      (j.detail = none ∨ j.detail = some "") →
      classifyResponse parse status data =
        .remoteError status (jsSlice data 300)) ∧
    (status < 400 → parse data = none →
      classifyResponse parse status data =
        .invalidResponse (jsSlice data 200)) := by
  refine ⟨?_, ?_, ?_, ?_⟩
  · intro h4 j d hp hd hne
    simp [classifyResponse, h4, hp, hd, hne]
  · intro h4 hp
    simp [classifyResponse, h4, hp]
  · intro h4 j hp hd
    rcases hd with hd | hd <;> simp [classifyResponse, h4, hp, hd]
  · intro h4 hp
    have hn : ¬ 400 ≤ status := by omega
    simp [classifyResponse, hn, hp]

/-- Witness for `classify_response_amended`: status 404 with body
`{"detail":"not found"}`, status 500 with a non-JSON body, and status 200
with a non-JSON body. -/
theorem classify_response_amended_witness :
    classifyResponse c6WitnessParse 404 "\x7b\"detail\":\"not found\"\x7d" =
      .remoteError 404 "not found" ∧
    classifyResponse c6WitnessParse 500 "oops, not json" =
      .remoteError 500 (jsSlice "oops, not json" 300) ∧
    classifyResponse c6WitnessParse 200 "oops, not json" =
      .invalidResponse (jsSlice "oops, not json" 200) := by
  refine ⟨?_, ?_, ?_⟩
  · exact (classify_response_amended c6WitnessParse 404
      "\x7b\"detail\":\"not found\"\x7d").1 (by decide)
      { detail := some "not found" } "not found" (by decide) rfl (by decide)
  · exact (classify_response_amended c6WitnessParse 500 "oops, not json").2.1
      (by decide) (by decide)
  · exact (classify_response_amended c6WitnessParse 200 "oops, not json").2.2.2
      (by decide) (by decide)

lemma processChunk_split (parse : List Char → Option PulledUnit)
    (s : IngestState) (chunk : List Char) (blocks : List (List Char))
    (buf : List Char)
    (hsplit : splitBlankLine (s.buffer ++ chunk) = blocks ++ [buf]) :
    processChunk parse s chunk =
      blocks.foldl (processBlock parse) { s with buffer := buf } := by
  unfold processChunk
  rw [hsplit]
  simp only [List.dropLast_concat, List.getLastD_concat]

/-- C4. The terminal outcome of a pull stream is derived solely from
the last known status observed across decodable units: `"done"` or
`"success"` yield `{status:"ok", model}`, `"error"` yields
`{status:"error", message:"Pull failed"}`, and any other value —
including when no status was ever observed — yields `{status:"ok",
model}`. -/
theorem pull_terminal_from_last_status (parse : List Char → Option PulledUnit)
    (chunks : List (List Char)) (model : String) :
    ((ingest parse chunks).lastStatus = "done" ∨
        (ingest parse chunks).lastStatus = "success" →
      pullModelResult parse chunks model =
        { status := "ok", model := some model, message := none }) ∧
    ((ingest parse chunks).lastStatus = "error" →
      pullModelResult parse chunks model =
        { status := "error", model := none, message := some "Pull failed" }) ∧
    ((ingest parse chunks).lastStatus ≠ "done" →
      (ingest parse chunks).lastStatus ≠ "success" →
      (ingest parse chunks).lastStatus ≠ "error" →
      pullModelResult parse chunks model =
        { status := "ok", model := some model, message := none }) ∧
    (∀ parse2 chunks2,
      (ingest parse2 chunks2).lastStatus = (ingest parse chunks).lastStatus →
      pullModelResult parse2 chunks2 model =
        pullModelResult parse chunks model) := by
  refine ⟨?_, ?_, ?_, ?_⟩
  · rintro (h | h) <;> simp [pullModelResult, pullTerminal, h]
  · intro h
    simp [pullModelResult, pullTerminal, h]
  · intro h1 h2 h3
    simp [pullModelResult, pullTerminal, h1, h2, h3]
  · intro parse2 chunks2 h
    simp [pullModelResult, h]

/-- Witness for `pull_terminal_from_last_status`: a stream whose last
decodable unit carries status `"error"`. -/
theorem pull_terminal_from_last_status_witness :
    (ingest c4Parse
      ["data: \x7b\"status\":\"error\"\x7d\n\n".data]).lastStatus = "error" ∧
    pullModelResult c4Parse
        ["data: \x7b\"status\":\"error\"\x7d\n\n".data] "llama" =
      { status := "error", model := none, message := some "Pull failed" } := by
  refine ⟨by decide, ?_⟩
  exact (pull_terminal_from_last_status c4Parse
    ["data: \x7b\"status\":\"error\"\x7d\n\n".data] "llama").2.1 (by decide)

/-- C7. For every chunked delivery: bytes accumulate in a buffer split
on the blank-line delimiter with any trailing partial unit retained (the
mid-unit re-chunking of the example stream yields the same final state);
only trimmed units beginning with `data: ` are considered; parse failures
are silently discarded; the sink receives `(pct, status)` exactly for
parsed units with a numeric pct, in arrival order; and on the two-unit
example stream the sink receives exactly the single call
`(10, "running")` and the terminal outcome is `{status:"ok", model}`. -/
theorem pull_stream_progress (parse : List Char → Option PulledUnit)
    (h1 : parse pullPayloadA = some { status := some "running", pct := some 10 })
    (h2 : parse pullPayloadB = some { status := some "done", pct := none }) :
    ingest parse [pullChunkA1, pullChunkA2] =
      { buffer := [], lastStatus := "done", events := [(10, "running")] } ∧
    pullModelResult parse [pullChunkA1, pullChunkA2] "m" =
      { status := "ok", model := some "m", message := none } ∧
    ingest parse [pullChunkB1, pullChunkB2] =
      ingest parse [pullChunkA1, pullChunkA2] ∧
    (∀ s block, jsStartsWith dataPrefix (jsTrim block) = false →
      processBlock parse s block = s) ∧
    (∀ s block, jsStartsWith dataPrefix (jsTrim block) = true →
      parse ((jsTrim block).drop 6) = none → processBlock parse s block = s) ∧
    (∀ s block u p, jsStartsWith dataPrefix (jsTrim block) = true →
      parse ((jsTrim block).drop 6) = some u → u.pct = some p →
      processBlock parse s block =
        { buffer := s.buffer, lastStatus := u.status.getD "",
          events := s.events ++ [(p, u.status.getD "")] }) ∧
    (∀ s block u, jsStartsWith dataPrefix (jsTrim block) = true →
      parse ((jsTrim block).drop 6) = some u → u.pct = none →
      processBlock parse s block = { s with lastStatus := u.status.getD "" }) := by
  have hw1 : jsStartsWith dataPrefix (jsTrim pullUnitA) = true := by decide
  have hd1 : (jsTrim pullUnitA).drop 6 = pullPayloadA := by decide
  have hw2 : jsStartsWith dataPrefix (jsTrim pullUnitB) = true := by decide
  have hd2 : (jsTrim pullUnitB).drop 6 = pullPayloadB := by decide
  have hb1 : processBlock parse initIngest pullUnitA =
      { buffer := [], lastStatus := "running", events := [(10, "running")] } := by
    simp [processBlock, hw1, hd1, h1, initIngest]
  have hb2 : processBlock parse
      { buffer := [], lastStatus := "running", events := [(10, "running")] }
      pullUnitB =
      { buffer := [], lastStatus := "done", events := [(10, "running")] } := by
    simp [processBlock, hw2, hd2, h2]
  have hc1 : processChunk parse initIngest pullChunkA1 =
      processBlock parse initIngest pullUnitA := by
    rw [processChunk_split parse initIngest pullChunkA1 [pullUnitA] []
      (by decide)]
    rfl
  have hc2 : processChunk parse
      { buffer := [], lastStatus := "running", events := [(10, "running")] }
      pullChunkA2 =
      processBlock parse
        { buffer := [], lastStatus := "running", events := [(10, "running")] }
        pullUnitB := by
    rw [processChunk_split parse
      { buffer := [], lastStatus := "running", events := [(10, "running")] }
      pullChunkA2 [pullUnitB] [] (by decide)]
    rfl
  have hA : ingest parse [pullChunkA1, pullChunkA2] =
      { buffer := [], lastStatus := "done", events := [(10, "running")] } := by
    have h0 : ingest parse [pullChunkA1, pullChunkA2] =
        processChunk parse (processChunk parse initIngest pullChunkA1)
          pullChunkA2 := rfl
    rw [h0, hc1, hb1, hc2, hb2]
  have hcb1 : processChunk parse initIngest pullChunkB1 =
      { buffer := pullChunkB1, lastStatus := "", events := [] } := by
    rw [processChunk_split parse initIngest pullChunkB1 [] pullChunkB1
      (by decide)]
    rfl
  have hcb2 : processChunk parse
      { buffer := pullChunkB1, lastStatus := "", events := [] } pullChunkB2 =
      processBlock parse (processBlock parse initIngest pullUnitA) pullUnitB := by
    rw [processChunk_split parse
      { buffer := pullChunkB1, lastStatus := "", events := [] }
      pullChunkB2 [pullUnitA, pullUnitB] [] (by decide)]
    rfl
  have hB : ingest parse [pullChunkB1, pullChunkB2] =
      { buffer := [], lastStatus := "done", events := [(10, "running")] } := by
    have h0 : ingest parse [pullChunkB1, pullChunkB2] =
        processChunk parse (processChunk parse initIngest pullChunkB1)
          pullChunkB2 := rfl
    rw [h0, hcb1, hcb2, hb1, hb2]
  refine ⟨hA, ?_, ?_, ?_, ?_, ?_, ?_⟩
  · simp [pullModelResult, hA, pullTerminal]
  · rw [hA, hB]
  · intro s block hfalse
    simp [processBlock, hfalse]
  · intro s block htrue hnone
    simp [processBlock, htrue, hnone]
  · intro s block u p htrue hsome hpct
    simp [processBlock, htrue, hsome, hpct]
  · intro s block u htrue hsome hpct
    simp [processBlock, htrue, hsome, hpct]

/-- Witness for `pull_stream_progress` at the concrete decoder. -/
theorem pull_stream_progress_witness :
    ingest c7Parse [pullChunkA1, pullChunkA2] =
      { buffer := [], lastStatus := "done", events := [(10, "running")] } ∧
    pullModelResult c7Parse [pullChunkA1, pullChunkA2] "m" =
      { status := "ok", model := some "m", message := none } ∧
    ingest c7Parse [pullChunkB1, pullChunkB2] =
      ingest c7Parse [pullChunkA1, pullChunkA2] := by
  have h := pull_stream_progress c7Parse (by decide) (by decide)
  exact ⟨h.1, h.2.1, h.2.2.1⟩

end Aether
